import Mathlib

/-!
Verification of the ru-smb-companies pipeline (Russian SMB companies dataset
builder) against its design specification.

The repository's CLI orchestration (`ru_smb_companies/__main__.py`) and the
generic Spark stage (`ru_smb_companies/stages/spark_stage.py`) are embedded
directly from their source.  The concrete stage implementations (extractor,
aggregator, code tree, record parser) are not part of the available source
tree; where a property depends on them, the relevant behaviour is modelled
from the specification, and each such definition says so in its doc comment.
-/

namespace RuSmb

/-! ### Dates

Snapshot dates attached to normalized rows.  The textual on-disk format is
`dd.MM.yyyy` (set in `SparkStage._read`); in memory a date is a plain triple.
-/

structure Date where
  day : Nat
  month : Nat
  year : Nat
  deriving Repr, DecidableEq

/-- `a.isAfter b` means `a` is strictly more recent than `b`
(lexicographic on year, month, day). -/
def Date.isAfter (a b : Date) : Bool :=
  (b.year < a.year) ||
    (b.year == a.year &&
      ((b.month < a.month) || (b.month == a.month && b.day < a.day)))

theorem Date.isAfter_irrefl (d : Date) : d.isAfter d = false := by
  simp [Date.isAfter]

/-! ### Normalized rows and the aggregation key-to-row map

`Row` is a normalized row as produced by extraction: a primary identifier, a
snapshot date, and the remaining (already textual) field values.
-/

structure Row where
  id : String
  date : Date
  fields : List String
  deriving Repr, DecidableEq

/-- Lookup of an identifier in the aggregation map, represented as an
association list from identifier to stored row (first match wins). -/
def lookupId (m : List (String × Row)) (k : String) : Option Row :=
  match m with
  | [] => none
  | p :: rest => if p.1 == k then some p.2 else lookupId rest k

/-- Replace the row stored under key `k` (all occurrences, of which a map
built by `dedupStep` has at most one). -/
def updateId (m : List (String × Row)) (k : String) (r : Row) :
    List (String × Row) :=
  m.map (fun p => if p.1 == k then (k, r) else p)

/-- Modelled from the spec: one step of the Deduplicator/Aggregator's
conflict resolution (`stages/aggregate.py` is not in the available source).
"if the identifier is new, insert; if it already exists, replace the stored
row only if the new row's snapshot date is strictly more recent
(latest-snapshot-wins); ties (equal snapshot date) keep the first-seen row". -/
def dedupStep (m : List (String × Row)) (r : Row) : List (String × Row) :=
  match lookupId m r.id with
  | none => m ++ [(r.id, r)]
  | some stored =>
      if r.date.isAfter stored.date then updateId m r.id r else m

/-- Modelled from the spec: folding a whole sequence of input rows into the
accumulating key-to-row map, in input order. -/
def dedupFold (rows : List Row) : List (String × Row) :=
  rows.foldl dedupStep []

/-- Modelled from the spec: the aggregated table, the map's stored rows. -/
def dedupValues (rows : List Row) : List Row :=
  (dedupFold rows).map (fun p => p.2)

theorem lookupId_append_of_none {m : List (String × Row)} {k : String}
    (h : lookupId m k = none) (r : Row) :
    lookupId (m ++ [(k, r)]) k = some r := by
  induction m with
  | nil => simp [lookupId]
  | cons p rest ih =>
      by_cases hp : p.1 == k
      · rw [lookupId, if_pos hp] at h
        exact absurd h (by simp)
      · rw [lookupId, if_neg hp] at h
        rw [List.cons_append, lookupId, if_neg hp]
        exact ih h

theorem lookupId_updateId {m : List (String × Row)} {k : String} {s : Row}
    (h : lookupId m k = some s) (r : Row) :
    lookupId (updateId m k r) k = some r := by
  induction m with
  | nil => simp [lookupId] at h
  | cons p rest ih =>
      by_cases hp : p.1 == k
      · rw [updateId, List.map_cons, if_pos hp]
        simp [lookupId]
      · rw [lookupId, if_neg hp] at h
        rw [updateId, List.map_cons, if_neg hp]
        rw [lookupId, if_neg hp]
        exact ih h

theorem dedupFold_append_row (rows : List Row) (r : Row) :
    dedupFold (rows ++ [r]) = dedupStep (dedupFold rows) r := by
  simp [dedupFold, List.foldl_append]

/-- **C1.** Conflict resolution of the aggregation key-to-row map: a fresh
identifier is inserted; an existing identifier's stored row is replaced
exactly when the new row's snapshot date is strictly more recent; on an
equal snapshot date the first-seen row is kept.  The first conjunct links
each processed input row of a sequence to one such map step, so the result
for equal-date duplicates is the first-encountered row in input order. -/
theorem dedup_conflict_resolution (rows : List Row)
    (m : List (String × Row)) (r : Row) :
    dedupFold (rows ++ [r]) = dedupStep (dedupFold rows) r ∧
    (lookupId m r.id = none → lookupId (dedupStep m r) r.id = some r) ∧
    (∀ s, lookupId m r.id = some s →
      lookupId (dedupStep m r) r.id =
        some (if r.date.isAfter s.date then r else s)) ∧
    (∀ s, lookupId m r.id = some s → r.date = s.date →
      lookupId (dedupStep m r) r.id = some s) := by
  refine ⟨dedupFold_append_row rows r, ?_, ?_, ?_⟩
  · intro h
    simp only [dedupStep, h]
    exact lookupId_append_of_none h r
  · intro s h
    simp only [dedupStep, h]
    by_cases hd : r.date.isAfter s.date
    · rw [if_pos hd, if_pos hd]
      exact lookupId_updateId h r
    · rw [if_neg hd, if_neg hd]
      exact h
  · intro s h heq
    simp only [dedupStep, h, heq, Date.isAfter_irrefl]
    simpa using h

/-! ### Activity-code taxonomy (CodeTree)

Dotted hierarchical activity codes such as `01.10.01`.  Splitting a code into
its dot-separated segments and truncating trailing segments are the two
operations the filter needs.
-/

/-- Dot-splitting of a character list (the segments of a dotted code). -/
def splitChars : List Char → List (List Char)
  | [] => [[]]
  | c :: rest =>
      if c = '.' then [] :: splitChars rest
      else
        match splitChars rest with
        | [] => [[c]]
        | s :: ss => (c :: s) :: ss

/-- Re-joining segments with dots. -/
def joinSegs : List (List Char) → List Char
  | [] => []
  | [s] => s
  | s :: rest => s ++ '.' :: joinSegs rest

/-- The dot-separated segments of a code. -/
def segments (c : String) : List String :=
  (splitChars c.data).map List.asString

/-- A code truncated to its first `n` segments (its ancestor at depth `n`). -/
def truncate (c : String) (n : Nat) : String :=
  (joinSegs ((splitChars c.data).take n)).asString

theorem splitChars_ne_nil (l : List Char) : splitChars l ≠ [] := by
  cases l with
  | nil => simp [splitChars]
  | cons c rest =>
      rw [splitChars]
      by_cases hc : c = '.'
      · simp [hc]
      · rw [if_neg hc]
        cases h : splitChars rest <;> simp

theorem mem_splitChars {l : List Char} {s : List Char} {ch : Char}
    (hs : s ∈ splitChars l) (hch : ch ∈ s) : ch ∈ l := by
  induction l generalizing s with
  | nil =>
      simp [splitChars] at hs
      subst hs
      simp at hch
  | cons c rest ih =>
      rw [splitChars] at hs
      by_cases hc : c = '.'
      · rw [if_pos hc] at hs
        rcases List.mem_cons.mp hs with h | h
        · subst h; simp at hch
        · exact List.mem_cons_of_mem c (ih h hch)
      · rw [if_neg hc] at hs
        cases hrest : splitChars rest with
        | nil => exact absurd hrest (splitChars_ne_nil rest)
        | cons s0 ss =>
            rw [hrest] at hs
            rcases List.mem_cons.mp hs with h | h
            · subst h
              rcases List.mem_cons.mp hch with h' | h'
              · exact h' ▸ List.mem_cons_self c rest
              · refine List.mem_cons_of_mem c (ih ?_ h')
                rw [hrest]
                exact List.mem_cons_self s0 ss
            · refine List.mem_cons_of_mem c (ih ?_ hch)
              rw [hrest]
              exact List.mem_cons_of_mem s0 h

theorem mem_joinSegs {ss : List (List Char)} {ch : Char}
    (h : ch ∈ joinSegs ss) : ch = '.' ∨ ∃ s ∈ ss, ch ∈ s := by
  induction ss with
  | nil => simp [joinSegs] at h
  | cons s rest ih =>
      cases rest with
      | nil =>
          right
          exact ⟨s, List.mem_cons_self s [], by simpa [joinSegs] using h⟩
      | cons s1 rest1 =>
          have hj : joinSegs (s :: s1 :: rest1) = s ++ '.' :: joinSegs (s1 :: rest1) := rfl
          rw [hj] at h
          rcases List.mem_append.mp h with h' | h'
          · exact Or.inr ⟨s, List.mem_cons_self _ _, h'⟩
          · rcases List.mem_cons.mp h' with h'' | h''
            · exact Or.inl h''
            · rcases ih h'' with hdot | ⟨t, ht, hcht⟩
              · exact Or.inl hdot
              · exact Or.inr ⟨t, List.mem_cons_of_mem s ht, hcht⟩

/-- Every character of a truncated code is a dot or a character of the code. -/
theorem mem_truncate {c : String} {n : Nat} {ch : Char}
    (h : ch ∈ (truncate c n).data) : ch = '.' ∨ ch ∈ c.data := by
  rw [truncate] at h
  have h' : ch ∈ joinSegs ((splitChars c.data).take n) := by
    simpa using h
  rcases mem_joinSegs h' with hdot | ⟨s, hs, hch⟩
  · exact Or.inl hdot
  · exact Or.inr (mem_splitChars (List.mem_of_mem_take hs) hch)

/-- A filter entry that is a single alphabetic character is a top-level
group letter; everything else is treated as a dotted numeric code.
Modelled from the spec: "for each filter code, determine whether it is a
group letter or a dotted numeric code" (the CodeTree implementation lives
in the extraction stage, which is not in the available source). -/
def isGroupLetter (s : String) : Bool :=
  s.length == 1 && s.data.all Char.isAlpha

/-- Modelled from the spec: the CodeTree's stored filters, partitioned into
group letters and dotted codes. -/
structure CodeTree where
  groupFilters : List String
  codeFilters : List String
  deriving Repr

/-- Modelled from the spec: building the CodeTree from the raw filter list. -/
def CodeTree.build (filters : List String) : CodeTree :=
  { groupFilters := filters.filter (fun f => isGroupLetter f),
    codeFilters := filters.filter (fun f => !isGroupLetter f) }

/-- Modelled from the spec: "`matches(code)` succeeds if the record's group
letter equals a stored group filter, OR if the record's dotted code equals a
stored exact filter, OR if the record's dotted code's ancestor-prefix (code
truncated to the filter's segment count) equals a stored filter ... If no
filters are configured, `matches` always returns true". -/
def CodeTree.matches (t : CodeTree) (code : String) : Bool :=
  if t.groupFilters.isEmpty && t.codeFilters.isEmpty then true
  else
    t.groupFilters.contains code ||
    t.codeFilters.contains code ||
    t.codeFilters.any (fun f => truncate code (segments f).length == f)

/-- A truncation of a code with no alphabetic characters is never classified
as a group-letter filter. -/
theorem isGroupLetter_truncate_eq_false {c f : String} {n : Nat}
    (hanc : truncate c n = f)
    (hc : c.data.all (fun ch => !ch.isAlpha) = true) :
    isGroupLetter f = false := by
  rw [isGroupLetter]
  cases hd : f.data with
  | nil =>
      have hlen : f.length = 0 := by
        rw [String.length, hd]
        rfl
      simp [hlen]
  | cons ch rest =>
      have hmem : ch ∈ f.data := by
        rw [hd]
        exact List.mem_cons_self _ _
      have hmem' : ch ∈ (truncate c n).data := hanc ▸ hmem
      rcases mem_truncate hmem' with hdot | hin
      · have hna : ch.isAlpha = false := by rw [hdot]; decide
        simp [hd, hna]
      · have hna : ch.isAlpha = false := by
          have := List.all_eq_true.mp hc ch hin
          simpa using this
        simp [hd, hna]

/-- **C2.** Any configured filter that is an ancestor prefix of an activity
code (the code truncated to the filter's segment count equals the filter)
makes `CodeTree.matches` accept the code; and with no configured filters
`matches` accepts every code (filtering disabled).  The hypothesis on `c`
says it is a dotted (non-letter) code, the form activity codes take in the
data model. -/
theorem codeTree_ancestor_match (filters : List String) (c f c2 : String)
    (hf : f ∈ filters) (hanc : truncate c (segments f).length = f)
    (hc : c.data.all (fun ch => !ch.isAlpha) = true) :
    (CodeTree.build filters).matches c = true ∧
    (CodeTree.build []).matches c2 = true := by
  constructor
  · have hgl : isGroupLetter f = false := isGroupLetter_truncate_eq_false hanc hc
    have hfmem : f ∈ (CodeTree.build filters).codeFilters := by
      simp [CodeTree.build, List.mem_filter, hf, hgl]
    have hne : (CodeTree.build filters).codeFilters.isEmpty = false := by
      cases hcf : (CodeTree.build filters).codeFilters with
      | nil => rw [hcf] at hfmem; simp at hfmem
      | cons a l => simp
    have hany : (CodeTree.build filters).codeFilters.any
        (fun g => truncate c (segments g).length == g) = true := by
      rw [List.any_eq_true]
      exact ⟨f, hfmem, by simp [hanc]⟩
    rw [CodeTree.matches]
    simp [hne, hany]
  · rw [CodeTree.matches]
    simp [CodeTree.build]

/-- Concrete instance of the ancestor-prefix rule from the CLI help text:
the filter `01.10` selects the child code `01.10.01`, and an empty filter
list disables filtering. -/
theorem codeTree_ancestor_match_witness :
    (CodeTree.build ["01.10"]).matches "01.10.01" = true ∧
    (CodeTree.build []).matches "69.20" = true :=
  codeTree_ancestor_match ["01.10"] "01.10.01" "01.10" "69.20"
    (by decide) (by decide) (by decide)

/-! ### SparkStage (`stages/spark_stage.py`)

`SparkStage._read` resolves an input path to the list of CSV files it will
read; `SparkStage._write` saves a dataframe with fixed CSV options.  The
filesystem is abstracted to what `_read` inspects: whether the path exists,
whether it is a directory, the directory's entry names, and a plain file's
final name component.
-/

/-- `pathlib.PurePath.suffix`: the extension of the final path component,
with its leading dot; empty when the name holds no dot, when the only dot is
the leading character, or when the name ends in its last dot (pathlib's
condition `0 < i < len(name) - 1` on the last dot's index `i`). -/
def pathSuffix (name : String) : String :=
  let rev := name.data.reverse
  let ext := rev.takeWhile (fun ch => ch ≠ '.')
  if ext.length == rev.length then ""
  else if ext.length == 0 then ""
  else if ext.length == rev.length - 1 then ""
  else ('.' :: ext.reverse).asString

/-- The glob pattern `data-*.csv` used by `_read` on directory inputs: the
entry name is `data-`, then anything (possibly empty), then `.csv`. -/
def globDataCsv (fn : String) : Bool :=
  fn.data.take 5 == "data-".data &&
    (fn.data.drop 5).reverse.take 4 == ".csv".data.reverse

/-- The part of the filesystem state `_read` inspects for one input path. -/
inductive InPath
  | missing
  | dir (files : List String)
  | file (name : String)
  deriving Repr, DecidableEq

/-- `SparkStage._read` (lines 35–58): `None` when the path does not exist;
for a directory, the entries matching `data-*.csv`; for a plain file, the
file itself but only when `path.suffix == "csv"`; `None` when the selected
file list is empty ("Input path does not contain readable CSV file(s)").
`some files` stands for a dataframe read from exactly `files`. -/
def SparkStage.read : InPath → Option (List String)
  | .missing => none
  | .dir files =>
      let inputFiles := files.filter globDataCsv
      if inputFiles.length == 0 then none else some inputFiles
  | .file name =>
      let inputFiles := if pathSuffix name == "csv" then [name] else []
      if inputFiles.length == 0 then none else some inputFiles

/-- `pathlib` suffixes are empty or carry a leading dot, so the comparison
with the bare string `"csv"` in `_read` can never succeed. -/
theorem pathSuffix_ne_csv (name : String) : pathSuffix name ≠ "csv" := by
  rw [pathSuffix]
  intro h
  split_ifs at h
  · exact absurd h (by decide)
  · exact absurd h (by decide)
  · exact absurd h (by decide)
  · have hd := congrArg String.data h
    simp [List.asString] at hd

/-- **C7.** An existing input path that is not a directory is never read:
`_read` accepts a plain file only when `path.suffix == "csv"`, which is
impossible since `pathlib` suffixes carry a leading dot; consequently data
is only ever read from directory inputs, through their `data-*.csv`
entries. -/
theorem read_file_is_none (name : String) (p : InPath) :
    SparkStage.read (.file name) = none ∧
    (∀ out, SparkStage.read p = some out →
      ∃ fs, p = .dir fs ∧ out = fs.filter globDataCsv ∧ out ≠ []) := by
  constructor
  · rw [SparkStage.read]
    have hs : (pathSuffix name == "csv") = false := by
      simp [pathSuffix_ne_csv name]
    simp [hs]
  · intro out hout
    cases p with
    | missing => simp [SparkStage.read] at hout
    | dir files =>
        refine ⟨files, rfl, ?_, ?_⟩
        · rw [SparkStage.read] at hout
          by_cases hlen : (files.filter globDataCsv).length == 0
          · simp [hlen] at hout
          · simp [hlen] at hout
            exact hout.symm
        · intro hnil
          rw [SparkStage.read] at hout
          by_cases hlen : (files.filter globDataCsv).length == 0
          · simp [hlen] at hout
          · simp [hlen] at hout
            apply hlen
            rw [hout, hnil]
            rfl
    | file n =>
        rw [SparkStage.read] at hout
        have hs : (pathSuffix n == "csv") = false := by
          simp [pathSuffix_ne_csv n]
        simp [hs] at hout

/-- Concrete instance: a CSV file passed directly (not inside a directory)
is rejected by `_read`, and a directory is read exactly through its
`data-*.csv` entries. -/
theorem read_file_is_none_witness :
    SparkStage.read (.file "table.csv") = none ∧
    ∃ fs, InPath.dir ["data-0.csv", "readme.txt"] = .dir fs ∧
      (["data-0.csv"] : List String) = fs.filter globDataCsv ∧
      (["data-0.csv"] : List String) ≠ [] := by
  constructor
  · exact (read_file_is_none "table.csv" .missing).1
  · exact (read_file_is_none "table.csv"
      (.dir ["data-0.csv", "readme.txt"])).2 ["data-0.csv"] (by decide)

/-- Concrete instance of the conflict-resolution rule: an insert of a fresh
identifier, a replacement by a strictly later snapshot (2022-01-01 beats
2021-01-01), and an equal-date tie keeping the first-seen row. -/
theorem dedup_conflict_resolution_witness :
    (lookupId (dedupStep [] ⟨"100", ⟨1, 1, 2021⟩, ["first"]⟩) "100" =
      some ⟨"100", ⟨1, 1, 2021⟩, ["first"]⟩) ∧
    (lookupId
      (dedupStep [("100", ⟨"100", ⟨1, 1, 2021⟩, ["first"]⟩)]
        ⟨"100", ⟨1, 1, 2022⟩, ["second"]⟩) "100" =
      some ⟨"100", ⟨1, 1, 2022⟩, ["second"]⟩) ∧
    (lookupId
      (dedupStep [("100", ⟨"100", ⟨1, 1, 2021⟩, ["first"]⟩)]
        ⟨"100", ⟨1, 1, 2021⟩, ["tie"]⟩) "100" =
      some ⟨"100", ⟨1, 1, 2021⟩, ["first"]⟩) := by
  refine ⟨?_, ?_, ?_⟩
  · exact (dedup_conflict_resolution [] []
      ⟨"100", ⟨1, 1, 2021⟩, ["first"]⟩).2.1 (by decide)
  · have := (dedup_conflict_resolution []
      [("100", ⟨"100", ⟨1, 1, 2021⟩, ["first"]⟩)]
      ⟨"100", ⟨1, 1, 2022⟩, ["second"]⟩).2.2.1
      ⟨"100", ⟨1, 1, 2021⟩, ["first"]⟩ (by decide)
    simpa using this
  · exact (dedup_conflict_resolution []
      [("100", ⟨"100", ⟨1, 1, 2021⟩, ["first"]⟩)]
      ⟨"100", ⟨1, 1, 2021⟩, ["tie"]⟩).2.2.2
      ⟨"100", ⟨1, 1, 2021⟩, ["first"]⟩ (by decide) rfl

/-! ### Aggregation run (C3) -/

/-- Outcome of one aggregation run: `ok rows` is a successfully created
output file holding `rows`; `error` is an aborted run. -/
inductive AggResult
  | ok (rows : List Row)
  | error (msg : String)
  deriving Repr, DecidableEq

/-- Modelled from the spec: the Aggregator's run over one source directory
(`stages/aggregate.py` is not in the available source).  Reading goes
through `SparkStage.read`; when the read yields no data the stage still
writes a successfully created, empty output file ("A source directory
containing no readable chunk files yields an empty, but successfully
created, output file — not an error"); otherwise the chunk rows are folded
through the deduplication map. -/
def Aggregator.run (p : InPath) (contents : String → List Row) : AggResult :=
  match SparkStage.read p with
  | none => .ok []
  | some files => .ok (dedupValues (files.map contents).flatten)

/-- **C3.** An aggregation run over an existing source directory with no
readable chunk files succeeds and produces an empty output file; it does
not raise or abort. -/
theorem aggregate_empty_dir_ok (files : List String)
    (contents : String → List Row)
    (h : files.filter globDataCsv = []) :
    Aggregator.run (.dir files) contents = .ok [] := by
  rw [Aggregator.run]
  have hread : SparkStage.read (.dir files) = none := by
    rw [SparkStage.read]
    simp [h]
  rw [hread]

/-- Concrete instance: a directory holding only a non-chunk file aggregates
to a successful, empty output. -/
theorem aggregate_empty_dir_ok_witness :
    Aggregator.run (.dir ["readme.txt"]) (fun _ => []) = .ok [] :=
  aggregate_empty_dir_ok ["readme.txt"] (fun _ => []) (by decide)

/-! ### CLI orchestration (`ru_smb_companies/__main__.py`)

Python name resolution for the command bodies: a name read inside a function
body resolves against the local scope, then the module's global scope, then
the builtins; an unbound name raises `NameError` at the point of use.
-/

/-- The names bound at module level in `__main__.py`: imports, module-level
assignments (including `f`, bound by the `with open(...) as f` block when
the config file loads), and the command function definitions. -/
def moduleNames : List String :=
  ["enum", "json", "pathlib", "List", "Optional", "Annotated", "typer",
   "Aggregator", "Downloader", "Extractor", "Georeferencer", "Panelizer",
   "SourceDatasets", "StageNames", "Storages",
   "APP_NAME", "app", "download_app", "extract_app", "aggregate_app",
   "default_config", "app_dir", "app_config_path", "f", "app_config",
   "get_default_path", "get_downloader",
   "download_all", "download_smb", "download_revexp", "download_empl",
   "extract_all", "extract_smb", "extract_revexp", "extract_empl",
   "aggregate_all", "aggregate_smb", "aggregate_revexp", "aggregate_empl",
   "georeference", "panelize", "config", "process"]

/-- The Python builtins the module's command bodies use. -/
def builtinNames : List String :=
  ["str", "dict", "print", "open", "int", "bool", "list", "len",
   "RuntimeError", "NameError"]

/-- Whether a name read inside a command body resolves (locals, then module
globals, then builtins). -/
def resolveName (locals : List String) (n : String) : Bool :=
  locals.contains n || moduleNames.contains n || builtinNames.contains n

/-- The first name a body reads that does not resolve — the `NameError` the
body raises — or `none` when every read resolves. -/
def firstNameError (locals : List String) (reads : List String) :
    Option String :=
  reads.find? (fun n => !resolveName locals n)

/-- Outcome of one CLI command invocation. -/
inductive CliOutcome
  | ok
  | nameError (n : String)
  | usageError
  deriving Repr, DecidableEq

/-- Local names bound in `aggregate_smb` when the call on line 357 runs:
the two parameters and the variable assigned on line 356. -/
def aggregate_smb_locals : List String := ["in_dir", "out_dir", "a"]

/-- The names the body of `aggregate_smb` (lines 356–357) reads, in
evaluation order: `a = Aggregator()`, then the call
`a(str(in_dir), str(out_file), SourceDatasets.smb.value)`. -/
def aggregate_smb_body_reads : List String :=
  ["Aggregator", "a", "str", "in_dir", "str", "out_file", "SourceDatasets"]

/-- The `aggregate smb` command body (lines 356–357): it raises `NameError`
at its first unresolvable name, in which case the `Aggregator` is never
invoked; the second component lists the aggregator calls performed. -/
def aggregate_smb_cmd (in_dir out_dir : String) :
    CliOutcome × List (List String) :=
  match firstNameError aggregate_smb_locals aggregate_smb_body_reads with
  | some n => (.nameError n, [])
  | none => (.ok, [[in_dir, out_dir, "smb"]])

/-- **C9.** Every invocation of `aggregate smb`, whatever its arguments,
raises `NameError` on the undefined name `out_file` (the declared parameter
is `out_dir`) before any aggregation output is produced. -/
theorem aggregate_smb_raises_nameError (in_dir out_dir : String) :
    aggregate_smb_cmd in_dir out_dir = (.nameError "out_file", []) := rfl

/-- Local names bound in `aggregate_revexp` / `aggregate_empl` at the call
on lines 388 / 419: the three parameters and the variable `a`. -/
def aggregate_companion_locals : List String :=
  ["in_dir", "out_dir", "smb_data_file", "a"]

/-- The names the bodies of `aggregate_revexp` and `aggregate_empl`
(lines 387–388 and 418–419) read, in evaluation order. -/
def aggregate_companion_body_reads : List String :=
  ["Aggregator", "a", "str", "in_dir", "str", "out_file",
   "SourceDatasets", "str", "smb_data_file"]

/-- The `aggregate revexp` / `aggregate empl` commands: typer first
validates the `smb_data_file` option (`exists=True`, `readable=True`,
lines 374–382 / 405–413), aborting with a usage error before the body runs
when the companion file is missing or unreadable; otherwise the body runs
and raises at its first unresolvable name.  The second component lists the
aggregator calls performed. -/
def aggregate_companion_cmd (mode : String)
    (companionExists companionReadable : Bool) :
    CliOutcome × List (List String) :=
  if companionExists && companionReadable then
    match firstNameError aggregate_companion_locals
        aggregate_companion_body_reads with
    | some n => (.nameError n, [])
    | none => (.ok, [[mode]])
  else
    (.usageError, [])

/-- **C4.** An aggregation run of a non-primary dataset kind (`revexp` or
`empl`) whose companion SMB aggregate file is missing or unreadable fails
with a fatal configuration (usage) error and aborts before any aggregation
work begins: no aggregator call is performed. -/
theorem aggregate_companion_missing_aborts (mode : String)
    (companionExists companionReadable : Bool)
    (_hmode : mode = "revexp" ∨ mode = "empl")
    (hbad : companionExists = false ∨ companionReadable = false) :
    aggregate_companion_cmd mode companionExists companionReadable =
      (.usageError, []) := by
  rw [aggregate_companion_cmd]
  rcases hbad with h | h <;> rw [h] <;> simp

/-- Concrete instance: `aggregate revexp` with a missing companion file is
rejected before any work. -/
theorem aggregate_companion_missing_aborts_witness :
    aggregate_companion_cmd "revexp" false true = (.usageError, []) :=
  aggregate_companion_missing_aborts "revexp" false true
    (Or.inl rfl) (Or.inl rfl)

/-- Python dict assignment `m[k] = v`: update in place, or append. -/
def setKey : List (String × String) → String → String → List (String × String)
  | [], k, v => [(k, v)]
  | p :: rest, k, v => if p.1 == k then (k, v) :: rest else p :: setKey rest k v

/-- Resolve a name to a value: the local bindings, then the module globals,
then the builtins (global and builtin values are placeholders — only
resolvability matters to the embedded bodies). -/
def lookupVar (locals : List (String × String)) (n : String) : Option String :=
  match locals.find? (fun p => p.1 == n) with
  | some p => some p.2
  | none =>
      if moduleNames.contains n then some ("<global:" ++ n ++ ">")
      else if builtinNames.contains n then some ("<builtin:" ++ n ++ ">")
      else none

/-- One statement of the `config` command body on the non-`--show` path:
`app_config[key] = <name>`, or the final `json.dump(app_config, f)`. -/
inductive ConfigStmt
  | assignKey (key : String) (valueName : String)
  | writeDisk
  deriving Repr, DecidableEq

/-- The body of `config` without `--show` (lines 527–533), statement by
statement in source order. -/
def config_body : List ConfigStmt :=
  [.assignKey "token" "ydisk_token",
   .assignKey "num_workers" "extractor_num_workers",
   .assignKey "chunksize" "extractor_chunksize",
   .assignKey "storage" "storage",
   .writeDisk]

/-- State of one `config` run: its outcome, the in-memory `app_config`
dict, and the config file's on-disk contents (`none` when absent). -/
structure ConfigRun where
  outcome : CliOutcome
  mem : List (String × String)
  disk : Option (List (String × String))
  deriving Repr, DecidableEq

/-- Run the statements of the `config` body: an assignment whose value name
does not resolve raises `NameError` and stops the body, leaving both the
remaining assignments and the file write unexecuted. -/
def runConfigStmts (locals : List (String × String)) :
    List ConfigStmt → List (String × String) →
    Option (List (String × String)) → ConfigRun
  | [], mem, disk => ⟨.ok, mem, disk⟩
  | .assignKey k vn :: rest, mem, disk =>
      match lookupVar locals vn with
      | none => ⟨.nameError vn, mem, disk⟩
      | some v => runConfigStmts locals rest (setKey mem k v) disk
  | .writeDisk :: rest, mem, _ => runConfigStmts locals rest mem (some mem)

/-- The `config` command without `--show`: its parameters are the local
scope of the body (`show`, `chunksize`, `num_workers`, `storage`,
`ydisk_token` — there is no `extractor_num_workers` parameter), and the
body statements run in order against the in-memory config and the on-disk
file. -/
def config_cmd (chunksize num_workers storage ydisk_token : String)
    (mem : List (String × String)) (disk : Option (List (String × String))) :
    ConfigRun :=
  runConfigStmts
    [("show", "False"), ("chunksize", chunksize),
     ("num_workers", num_workers), ("storage", storage),
     ("ydisk_token", ydisk_token)]
    config_body mem disk

/-- **C10.** Every invocation of the `config` command without `--show`
raises `NameError` on the undefined name `extractor_num_workers` before the
configuration file is written, so the on-disk config is never updated
through this command. -/
theorem config_cmd_raises_nameError
    (chunksize num_workers storage ydisk_token : String)
    (mem : List (String × String))
    (disk : Option (List (String × String))) :
    (config_cmd chunksize num_workers storage ydisk_token mem disk).outcome =
        .nameError "extractor_num_workers" ∧
    (config_cmd chunksize num_workers storage ydisk_token mem disk).disk =
        disk :=
  ⟨rfl, rfl⟩

/-! ### Loaded configuration and its defaults (C8) -/

/-- The configuration record the CLI consumes. -/
structure AppConfig where
  storage : String
  token : String
  num_workers : Nat
  chunksize : Nat
  deriving Repr, DecidableEq

/-- `default_config` (line 48 of `__main__.py`). -/
def default_config : AppConfig :=
  { storage := "local", token := "", num_workers := 1, chunksize := 16 }

/-- The module-level config load (lines 53–59): the parsed file contents
when the file loads, the defaults on any failure ("Failed to load config,
default options are loaded"). -/
def loadAppConfig (loaded : Option AppConfig) : AppConfig :=
  match loaded with
  | some c => c
  | none => default_config

/-- The `Extractor(storage, num_workers, chunksize, token)` construction in
the extract commands (lines 188 and 237). -/
structure ExtractorArgs where
  storage : String
  num_workers : Nat
  chunksize : Nat
  token : String
  deriving Repr, DecidableEq

def mkExtractor (cfg : AppConfig) : ExtractorArgs :=
  { storage := cfg.storage, num_workers := cfg.num_workers,
    chunksize := cfg.chunksize, token := cfg.token }

/-- **C8.** When the configuration file is absent or unreadable, the loaded
configuration equals the defaults — `num_workers = 1`, `chunksize = 16`,
local storage, empty token — and the Extractor is constructed with
`num_workers = 1`. -/
theorem extractor_default_num_workers :
    loadAppConfig none = default_config ∧
    default_config.num_workers = 1 ∧
    default_config.chunksize = 16 ∧
    default_config.storage = "local" ∧
    default_config.token = "" ∧
    (mkExtractor (loadAppConfig none)).num_workers = 1 := by
  refine ⟨rfl, rfl, rfl, rfl, rfl, rfl⟩

/-! ### Date parsing (C5) and output rendering (C6) -/

/-- The CSV read options set by `SparkStage._read` (lines 52–54):
`header=True, dateFormat="dd.MM.yyyy", escape='"'`. -/
structure ReadOptions where
  header : Bool
  dateFormat : String
  escape : String
  deriving Repr, DecidableEq

def sparkReadOptions : ReadOptions :=
  { header := true, dateFormat := "dd.MM.yyyy", escape := "\"" }

/-- A non-empty digit sequence as a number; `none` otherwise. -/
def parseNatDigits (l : List Char) : Option Nat :=
  if !l.isEmpty && l.all Char.isDigit then
    some (l.foldl (fun acc ch => acc * 10 + (ch.toNat - '0'.toNat)) 0)
  else none

/-- Parsing a date field in the fixed `dd.MM.yyyy` textual format: two
digits, a dot, two digits, a dot, four digits, with a valid day and month
range; anything else is unparsable. -/
def parseDateDDMMYYYY (s : String) : Option Date :=
  match splitChars s.data with
  | [d, m, y] =>
      if d.length == 2 && m.length == 2 && y.length == 4 then
        match parseNatDigits d, parseNatDigits m, parseNatDigits y with
        | some dn, some mn, some yn =>
            if 1 ≤ dn && dn ≤ 31 && 1 ≤ mn && mn ≤ 12 then
              some ⟨dn, mn, yn⟩
            else none
        | _, _, _ => none
      else none
  | _ => none

/-- Modelled from the spec: the RecordParser's handling of the snapshot-date
field (the record parser lives in the extraction stage, which is not in the
available source): "Date fields use a fixed `day.month.year` textual
format; unparsable dates fail the record".  A failed record is not emitted
at all — there is no defaulted or null date. -/
def parseRecord (rid : String) (dateText : String) (fields : List String) :
    Option Row :=
  match parseDateDDMMYYYY dateText with
  | none => none
  | some d => some { id := rid, date := d, fields := fields }

/-- **C5.** Date fields are parsed with the fixed `dd.MM.yyyy` textual
format (the format configured in `SparkStage._read`), and a record whose
date field cannot be parsed in that format fails: it is not emitted, with a
default or null date or otherwise.  Conversely an emitted record carries
exactly the parsed date. -/
theorem record_date_parsing (rid dateText : String) (fields : List String) :
    sparkReadOptions.dateFormat = "dd.MM.yyyy" ∧
    (parseDateDDMMYYYY dateText = none →
      parseRecord rid dateText fields = none) ∧
    (∀ r, parseRecord rid dateText fields = some r →
      parseDateDDMMYYYY dateText = some r.date) := by
  refine ⟨rfl, ?_, ?_⟩
  · intro h
    simp [parseRecord, h]
  · intro r h
    rw [parseRecord] at h
    cases hp : parseDateDDMMYYYY dateText with
    | none => rw [hp] at h; simp at h
    | some d =>
        rw [hp] at h
        simp at h
        rw [← h]

/-- Concrete instance: an ISO-formatted date (`2021-01-01`) is unparsable
under `dd.MM.yyyy`, so its record fails rather than being emitted. -/
theorem record_date_parsing_witness :
    parseRecord "100" "2021-01-01" ["f"] = none :=
  (record_date_parsing "100" "2021-01-01" ["f"]).2.1 (by decide)

/-- The CSV write options set by `SparkStage._write` (line 63):
`header=True, nullValue="NA", escape='"'`. -/
structure WriteOptions where
  header : Bool
  nullValue : String
  escape : String
  deriving Repr, DecidableEq

def sparkWriteOptions : WriteOptions :=
  { header := true, nullValue := "NA", escape := "\"" }

/-- One output cell under the write options: a present value is written as
its text, a missing value as the configured `nullValue` token (the CSV
writer's null handling for the options set in `_write`). -/
def renderCell (opts : WriteOptions) (v : Option String) : String :=
  match v with
  | some s => s
  | none => opts.nullValue

/-- One output row: every cell rendered under the write options. -/
def renderRow (opts : WriteOptions) (cells : List (Option String)) :
    List String :=
  cells.map (renderCell opts)

/-- **C6.** Every missing field value in a row written by the aggregation
output path is represented by the fixed non-empty sentinel `NA`, never by
the empty string, so an absent value is distinguishable from an
empty-but-present one. -/
theorem missing_values_rendered_NA (cells : List (Option String)) (i : Nat)
    (h : cells[i]? = some none) :
    (renderRow sparkWriteOptions cells)[i]? = some "NA" ∧
    sparkWriteOptions.nullValue = "NA" ∧
    renderCell sparkWriteOptions none ≠ "" ∧
    renderCell sparkWriteOptions none ≠ renderCell sparkWriteOptions (some "") := by
  refine ⟨?_, rfl, by decide, by decide⟩
  rw [renderRow, List.getElem?_map, h]
  rfl

/-- Concrete instance: the second cell of a row, missing, is written as
`NA` while the first, an empty-but-present value, stays empty. -/
theorem missing_values_rendered_NA_witness :
    (renderRow sparkWriteOptions [some "", none])[1]? = some "NA" :=
  (missing_values_rendered_NA [some "", none] 1 (by decide)).1
